import Mathlib

/-!
Shallow embedding of the Tetris engine core
(`src/lib/tetris/gameActions.ts`, `src/lib/tetris/gameLogic.ts`,
`src/lib/tetris/constants.ts`, `src/lib/tetris/types.ts`,
`src/lib/tetris/gameState.ts`).

JS numbers holding integer coordinates/counters are embedded as `Int`/`Nat`;
times (milliseconds, possibly fractional) as `Rat`.  `Math.random()` draws are
embedded as explicit lists of naturals: a draw used to pick an index in
`[0, i]` is taken modulo `i + 1`, which ranges over exactly the values
`floor(random() * (i + 1))` can take.
-/

namespace Tetris

/-- `TetrominoType` from types.ts. -/
inductive Tetromino where
  | I | J | L | O | S | Z | T
deriving DecidableEq, Repr, Fintype

/-- `GameState` (the phase) from types.ts. -/
inductive GState where
  | menu | playing | paused | gameOver | levelTransition
deriving DecidableEq, Repr

/-- `Position` from types.ts. -/
structure Position where
  x : Int
  y : Int
deriving DecidableEq, Repr

/-- `ActivePiece` from types.ts; `rotation` is `RotationState = 0|1|2|3`. -/
structure ActivePiece where
  type : Tetromino
  position : Position
  rotation : Fin 4
  lockDelay : Int
  moveResets : Nat
deriving DecidableEq, Repr

/-- `GameBoard` from types.ts.  Row index 0 is the bottom row. -/
structure GameBoard where
  grid : List (List (Option Tetromino))
  width : Nat
  height : Nat
  visibleHeight : Nat
deriving DecidableEq, Repr

/-- `GameStats` from types.ts. -/
structure GameStats where
  score : Int
  level : Int
  lines : Int
  linesUntilNext : Int
deriving DecidableEq, Repr

/-- `TetrisGameState` from types.ts. -/
structure TetrisGameState where
  board : GameBoard
  activePiece : Option ActivePiece
  holdPiece : Option Tetromino
  canHold : Bool
  nextQueue : List Tetromino
  bag : List Tetromino
  ghostPiece : Option (List Position)
  stats : GameStats
  gameState : GState
  dropTime : Int
  lastDrop : Int
  gravityLevel : Int
deriving DecidableEq, Repr

/-! Constants from constants.ts. -/

def BOARD_WIDTH : Nat := 10
def BOARD_HEIGHT : Nat := 40
def VISIBLE_HEIGHT : Nat := 20
def SPAWN_ROW : Int := 21

def LOCK_DELAY : Int := 500
def MAX_MOVE_RESETS : Nat := 15

/-- `GRAVITY_SPEEDS` lookup together with the scan in `getGravitySpeed`
(gameLogic.ts): the entry with the highest key `≤ level`, default key 1. -/
def getGravitySpeed (level : Int) : Int :=
  if 30 ≤ level then 1
  else if 29 ≤ level then 2
  else if 19 ≤ level then 3
  else if 16 ≤ level then 4
  else if 13 ≤ level then 5
  else if 10 ≤ level then 6
  else if 9 ≤ level then 8
  else if 8 ≤ level then 13
  else if 7 ≤ level then 18
  else if 6 ≤ level then 23
  else if 5 ≤ level then 28
  else if 4 ≤ level then 33
  else if 3 ≤ level then 38
  else if 2 ≤ level then 43
  else 48

/-- `LINES_PER_LEVEL` record from constants.ts (keys 1-16). -/
def LINES_PER_LEVEL (level : Int) : Option Int :=
  if 1 ≤ level ∧ level ≤ 9 then some 10
  else if 10 ≤ level ∧ level ≤ 15 then some 20
  else if level = 16 then some 30
  else none

/-- `TETROMINO_SHAPES` from constants.ts: 4x4 masks, row 0 first. -/
def TETROMINO_SHAPES (t : Tetromino) (r : Fin 4) : List (List Nat) :=
  match t, r.val with
  | .I, 0 => [[0,0,0,0],[1,1,1,1],[0,0,0,0],[0,0,0,0]]
  | .I, 1 => [[0,0,1,0],[0,0,1,0],[0,0,1,0],[0,0,1,0]]
  | .I, 2 => [[0,0,0,0],[0,0,0,0],[1,1,1,1],[0,0,0,0]]
  | .I, _ => [[0,1,0,0],[0,1,0,0],[0,1,0,0],[0,1,0,0]]
  | .J, 0 => [[1,0,0,0],[1,1,1,0],[0,0,0,0],[0,0,0,0]]
  | .J, 1 => [[0,1,1,0],[0,1,0,0],[0,1,0,0],[0,0,0,0]]
  | .J, 2 => [[0,0,0,0],[1,1,1,0],[0,0,1,0],[0,0,0,0]]
  | .J, _ => [[0,1,0,0],[0,1,0,0],[1,1,0,0],[0,0,0,0]]
  | .L, 0 => [[0,0,1,0],[1,1,1,0],[0,0,0,0],[0,0,0,0]]
  | .L, 1 => [[0,1,0,0],[0,1,0,0],[0,1,1,0],[0,0,0,0]]
  | .L, 2 => [[0,0,0,0],[1,1,1,0],[1,0,0,0],[0,0,0,0]]
  | .L, _ => [[1,1,0,0],[0,1,0,0],[0,1,0,0],[0,0,0,0]]
  | .O, _ => [[0,1,1,0],[0,1,1,0],[0,0,0,0],[0,0,0,0]]
  | .S, 0 => [[0,1,1,0],[1,1,0,0],[0,0,0,0],[0,0,0,0]]
  | .S, 1 => [[0,1,0,0],[0,1,1,0],[0,0,1,0],[0,0,0,0]]
  | .S, 2 => [[0,0,0,0],[0,1,1,0],[1,1,0,0],[0,0,0,0]]
  | .S, _ => [[1,0,0,0],[1,1,0,0],[0,1,0,0],[0,0,0,0]]
  | .Z, 0 => [[1,1,0,0],[0,1,1,0],[0,0,0,0],[0,0,0,0]]
  | .Z, 1 => [[0,0,1,0],[0,1,1,0],[0,1,0,0],[0,0,0,0]]
  | .Z, 2 => [[0,0,0,0],[1,1,0,0],[0,1,1,0],[0,0,0,0]]
  | .Z, _ => [[0,1,0,0],[1,1,0,0],[1,0,0,0],[0,0,0,0]]
  | .T, 0 => [[0,1,0,0],[1,1,1,0],[0,0,0,0],[0,0,0,0]]
  | .T, 1 => [[0,1,0,0],[0,1,1,0],[0,1,0,0],[0,0,0,0]]
  | .T, 2 => [[0,0,0,0],[1,1,1,0],[0,1,0,0],[0,0,0,0]]
  | .T, _ => [[0,1,0,0],[1,1,0,0],[0,1,0,0],[0,0,0,0]]

/-- `SPAWN_POSITIONS` from constants.ts. -/
def SPAWN_POSITIONS (t : Tetromino) : Position :=
  match t with
  | .O => ⟨4, SPAWN_ROW⟩
  | _ => ⟨3, SPAWN_ROW⟩

/-- `SRS_WALL_KICKS` from constants.ts.  The keys are the literal strings of
the source (rotation states written `R`/`L` for 1/3). -/
def SRS_WALL_KICKS : List (String × List Position) :=
  [ ("JLSTZ_0_R", [⟨0, 0⟩, ⟨-1, 0⟩, ⟨-1, 1⟩, ⟨0, -2⟩, ⟨-1, -2⟩]),
    ("JLSTZ_R_0", [⟨0, 0⟩, ⟨1, 0⟩, ⟨1, -1⟩, ⟨0, 2⟩, ⟨1, 2⟩]),
    ("JLSTZ_R_2", [⟨0, 0⟩, ⟨1, 0⟩, ⟨1, -1⟩, ⟨0, 2⟩, ⟨1, 2⟩]),
    ("JLSTZ_2_R", [⟨0, 0⟩, ⟨-1, 0⟩, ⟨-1, 1⟩, ⟨0, -2⟩, ⟨-1, -2⟩]),
    ("JLSTZ_2_L", [⟨0, 0⟩, ⟨1, 0⟩, ⟨1, 1⟩, ⟨0, -2⟩, ⟨1, -2⟩]),
    ("JLSTZ_L_2", [⟨0, 0⟩, ⟨-1, 0⟩, ⟨-1, -1⟩, ⟨0, 2⟩, ⟨-1, 2⟩]),
    ("JLSTZ_L_0", [⟨0, 0⟩, ⟨-1, 0⟩, ⟨-1, -1⟩, ⟨0, 2⟩, ⟨-1, 2⟩]),
    ("JLSTZ_0_L", [⟨0, 0⟩, ⟨1, 0⟩, ⟨1, 1⟩, ⟨0, -2⟩, ⟨1, -2⟩]),
    ("I_0_R", [⟨0, 0⟩, ⟨-2, 0⟩, ⟨1, 0⟩, ⟨-2, -1⟩, ⟨1, 2⟩]),
    ("I_R_0", [⟨0, 0⟩, ⟨2, 0⟩, ⟨-1, 0⟩, ⟨2, 1⟩, ⟨-1, -2⟩]),
    ("I_R_2", [⟨0, 0⟩, ⟨-1, 0⟩, ⟨2, 0⟩, ⟨-1, 2⟩, ⟨2, -1⟩]),
    ("I_2_R", [⟨0, 0⟩, ⟨1, 0⟩, ⟨-2, 0⟩, ⟨1, -2⟩, ⟨-2, 1⟩]),
    ("I_2_L", [⟨0, 0⟩, ⟨2, 0⟩, ⟨-1, 0⟩, ⟨2, 1⟩, ⟨-1, -2⟩]),
    ("I_L_2", [⟨0, 0⟩, ⟨-2, 0⟩, ⟨1, 0⟩, ⟨-2, -1⟩, ⟨1, 2⟩]),
    ("I_L_0", [⟨0, 0⟩, ⟨1, 0⟩, ⟨-2, 0⟩, ⟨1, -2⟩, ⟨-2, 1⟩]),
    ("I_0_L", [⟨0, 0⟩, ⟨-1, 0⟩, ⟨2, 0⟩, ⟨-1, 2⟩, ⟨2, -1⟩]) ]

/-- `ALL_PIECES` from constants.ts. -/
def ALL_PIECES : List Tetromino := [.I, .J, .L, .O, .S, .Z, .T]

/-! `BASE_SCORES` from constants.ts. -/

def SCORE_SINGLE : Int := 100
def SCORE_DOUBLE : Int := 300
def SCORE_TRIPLE : Int := 500
def SCORE_TETRIS : Int := 800
def SCORE_T_SPIN_SINGLE : Int := 800
def SCORE_T_SPIN_DOUBLE : Int := 1200
def SCORE_T_SPIN_TRIPLE : Int := 1600
def SCORE_SOFT_DROP : Int := 1
def SCORE_HARD_DROP : Int := 2

/-! gameLogic.ts -/

/-- `createEmptyBoard` from gameLogic.ts. -/
def createEmptyBoard : GameBoard :=
  { grid := List.replicate BOARD_HEIGHT (List.replicate BOARD_WIDTH none),
    width := BOARD_WIDTH, height := BOARD_HEIGHT, visibleHeight := VISIBLE_HEIGHT }

/-- `getPieceShape` from gameLogic.ts. -/
def getPieceShape (t : Tetromino) (r : Fin 4) : List (List Nat) :=
  TETROMINO_SHAPES t r

/-- The `(row, col)` pairs of the set cells of a mask, scanned row-major as in
the loop of `getPieceBlocks`. -/
def shapeCells (shape : List (List Nat)) : List (Nat × Nat) :=
  shape.enum.flatMap fun rowPair =>
    rowPair.2.enum.filterMap fun colPair =>
      if colPair.2 = 1 then some (rowPair.1, colPair.1) else none

/-- `getPieceBlocks` from gameLogic.ts: absolute cells, row-major scan,
`x = position.x + col`, `y = position.y + row`. -/
def getPieceBlocks (piece : ActivePiece) : List Position :=
  (shapeCells (getPieceShape piece.type piece.rotation)).map fun cell =>
    ⟨piece.position.x + cell.2, piece.position.y + cell.1⟩

/-- Read a board cell, `none` when outside the stored grid
(`board.grid[y][x]` in the source, only evaluated at checked indices). -/
def cellAt (board : GameBoard) (x y : Int) : Option Tetromino :=
  (board.grid.getD y.toNat []).getD x.toNat none

/-- `isValidPosition` from gameLogic.ts. -/
def isValidPosition (board : GameBoard) (piece : ActivePiece) (offset : Position) : Bool :=
  let testPiece := { piece with
    position := ⟨piece.position.x + offset.x, piece.position.y + offset.y⟩ }
  (getPieceBlocks testPiece).all fun block =>
    if block.x < 0 ∨ (board.width : Int) ≤ block.x ∨ block.y < 0 then false
    else if block.y < (board.height : Int) ∧ cellAt board block.x block.y ≠ none then false
    else true

/-- One step of the Fisher-Yates loop: `[bag[i], bag[j]] = [bag[j], bag[i]]`. -/
def listSwap (l : List Tetromino) (i j : Nat) : List Tetromino :=
  match l.get? i, l.get? j with
  | some a, some b => (l.set i b).set j a
  | _, _ => l

/-- The Fisher-Yates loop of `generateBag`: `i` counts down, each round draws
`j = floor(random() * (i + 1))`, embedded as `r % (i + 1)`. -/
def fisherYates (l : List Tetromino) (rng : List Nat) : Nat → List Tetromino
  | 0 => l
  | k + 1 => fisherYates (listSwap l (k + 1) (rng.headD 0 % (k + 2))) rng.tail k

/-- `generateBag` from gameLogic.ts, randomness passed explicitly. -/
def generateBag (rng : List Nat) : List Tetromino :=
  fisherYates ALL_PIECES rng 6

/-- `getNextPiece` from gameLogic.ts (it reads only `gameState.bag`, embedded
as a function of the bag).  The source's `newBag.shift()!` is sound because a
freshly generated bag has 7 elements; the `headD` default is never used. -/
def getNextPiece (bag : List Tetromino) (rng : List Nat) : Tetromino × List Tetromino :=
  let newBag := if bag.isEmpty then generateBag rng else bag
  (newBag.headD .I, newBag.tail)

/-- `createActivePiece` from gameLogic.ts. -/
def createActivePiece (t : Tetromino) : ActivePiece :=
  { type := t, position := SPAWN_POSITIONS t, rotation := 0, lockDelay := 0, moveResets := 0 }

/-- `((piece.rotation + direction + 4) % 4)` of `tryRotation`, as a `Fin 4`. -/
def rotIndex (z : Int) : Fin 4 :=
  ⟨(z % 4).toNat, by
    have h1 : 0 ≤ z % 4 := Int.emod_nonneg z (by decide)
    have h2 : z % 4 < 4 := Int.emod_lt_of_pos z (by decide)
    omega⟩

/-- The string `` `${pieceType}_${piece.rotation}_${newRotation}` `` built in
`tryRotation`: rotation states are rendered as the decimal digits 0-3. -/
def rotationKeyOf (t : Tetromino) (fromRot toRot : Fin 4) : String :=
  (if t = Tetromino.I then "I" else "JLSTZ") ++ "_" ++ toString fromRot.val
    ++ "_" ++ toString toRot.val

/-- `tryRotation` from gameLogic.ts: look up the kick list (default `[(0,0)]`
when the key is absent), try each candidate in order; every candidate carries
`rotation := newRotation` and `moveResets := piece.moveResets + 1`, with the
kick applied as `(+kick.x, -kick.y)`. -/
def tryRotation (board : GameBoard) (piece : ActivePiece) (direction : Int) :
    Option ActivePiece :=
  let newRotation := rotIndex ((piece.rotation.val : Int) + direction + 4)
  let rotationKey := rotationKeyOf piece.type piece.rotation newRotation
  let wallKicks := (List.lookup rotationKey SRS_WALL_KICKS).getD [⟨0, 0⟩]
  let candidates := wallKicks.map fun kick =>
    { piece with
      position := ⟨piece.position.x + kick.x, piece.position.y - kick.y⟩,
      rotation := newRotation,
      moveResets := piece.moveResets + 1 }
  candidates.find? fun testPiece => isValidPosition board testPiece ⟨0, 0⟩

/-- Write one tag into the grid (`newBoard.grid[block.y][block.x] = type`). -/
def setCell (g : List (List (Option Tetromino))) (x y : Int) (t : Tetromino) :
    List (List (Option Tetromino)) :=
  g.set y.toNat ((g.getD y.toNat []).set x.toNat (some t))

/-- `lockPiece` from gameLogic.ts: write the tag into every block cell with
`0 ≤ y < height`. -/
def lockPiece (board : GameBoard) (piece : ActivePiece) : GameBoard :=
  { board with
    grid := (getPieceBlocks piece).foldl (fun g block =>
      if 0 ≤ block.y ∧ block.y < (board.height : Int) then
        setCell g block.x block.y piece.type
      else g) board.grid }

/-- `getCompletedLines` from gameLogic.ts: row indices `0 ≤ row < height`
whose every cell is non-null. -/
def getCompletedLines (board : GameBoard) : List Nat :=
  (List.range board.height).filter fun row =>
    (board.grid.getD row []).all fun cell => cell.isSome

/-- `clearLines` from gameLogic.ts: drop the rows whose index is listed, then
append empty rows at the top until the grid is `board.height` rows again. -/
def clearLines (board : GameBoard) (linesToClear : List Nat) : GameBoard :=
  if linesToClear.isEmpty then board
  else
    let newGrid := (board.grid.enum.filter fun p => !(linesToClear.contains p.1)).map Prod.snd
    { board with
      grid := newGrid ++
        List.replicate (board.height - newGrid.length) (List.replicate board.width none) }

/-- The descent loop of `calculateGhostPosition`, with explicit fuel:
decrement `y` while the piece is valid one row lower. -/
def ghostDropYAux (board : GameBoard) (piece : ActivePiece) : Nat → Int → Int
  | 0, y => y
  | fuel + 1, y =>
    if isValidPosition board { piece with position := ⟨piece.position.x, y - 1⟩ } ⟨0, 0⟩ then
      ghostDropYAux board piece fuel (y - 1)
    else y

/-- The `while` loop of `calculateGhostPosition`.  Since every mask is
nonempty, a valid pose has `y ≥ -3`, so the loop makes at most
`(y + 4).toNat` steps; with that much fuel the fuel never runs out (the
characterization below proves the exit condition `¬ valid (y - 1)` holds at
the returned row). -/
def ghostDropY (board : GameBoard) (piece : ActivePiece) (y : Int) : Int :=
  ghostDropYAux board piece (y + 4).toNat y

/-- `calculateGhostPosition` from gameLogic.ts. -/
def calculateGhostPosition (board : GameBoard) (piece : ActivePiece) : List Position :=
  getPieceBlocks { piece with
    position := ⟨piece.position.x, ghostDropY board piece piece.position.y⟩ }

/-- `isGameOver` from gameLogic.ts: only the block-out test. -/
def isGameOver (board : GameBoard) (piece : ActivePiece) : Bool :=
  ! isValidPosition board piece ⟨0, 0⟩

/-- `shouldLock` from gameLogic.ts. -/
def shouldLock (board : GameBoard) (piece : ActivePiece) : Bool :=
  ! isValidPosition board piece ⟨0, -1⟩

/-- `calculateScore` from gameLogic.ts. -/
def calculateScore (linesCleared : Nat) (level : Int) (isTSpinFlag : Bool) : Int :=
  let baseScore : Int :=
    if isTSpinFlag then
      match linesCleared with
      | 1 => SCORE_T_SPIN_SINGLE
      | 2 => SCORE_T_SPIN_DOUBLE
      | 3 => SCORE_T_SPIN_TRIPLE
      | _ => 0
    else
      match linesCleared with
      | 1 => SCORE_SINGLE
      | 2 => SCORE_DOUBLE
      | 3 => SCORE_TRIPLE
      | 4 => SCORE_TETRIS
      | _ => 0
  baseScore * (level + 1)

/-- `updateStats` from gameLogic.ts. -/
def updateStats (stats : GameStats) (linesCleared : Nat) : GameStats :=
  let lines := stats.lines + linesCleared
  let linesUntilNext := stats.linesUntilNext - linesCleared
  if linesUntilNext ≤ 0 then
    let level := stats.level + 1
    { stats with
      lines := lines, level := level,
      linesUntilNext := (LINES_PER_LEVEL level).getD 30 }
  else
    { stats with lines := lines, linesUntilNext := linesUntilNext }

/-- `isTSpin` from gameLogic.ts: the simplified 3-of-4 corner count around the
cell at `position + (1,1)`. -/
def isTSpin (board : GameBoard) (piece : ActivePiece) : Bool :=
  if piece.type ≠ Tetromino.T then false
  else
    let blocks := getPieceBlocks piece
    match blocks.find? fun b =>
        decide (b.x = piece.position.x + 1 ∧ b.y = piece.position.y + 1) with
    | none => false
    | some centerBlock =>
      let corners : List Position :=
        [ ⟨centerBlock.x - 1, centerBlock.y - 1⟩, ⟨centerBlock.x + 1, centerBlock.y - 1⟩,
          ⟨centerBlock.x - 1, centerBlock.y + 1⟩, ⟨centerBlock.x + 1, centerBlock.y + 1⟩ ]
      let blockedCorners := corners.countP fun c =>
        decide (c.x < 0 ∨ (board.width : Int) ≤ c.x ∨ c.y < 0 ∨
          (c.y < (board.height : Int) ∧ cellAt board c.x c.y ≠ none))
      3 ≤ blockedCorners

/-! gameState.ts -/

/-- `setGameOver` from gameState.ts. -/
def setGameOver (gs : TetrisGameState) : TetrisGameState :=
  { gs with gameState := .gameOver }

/-- `updateDropTime` from gameState.ts: frames per drop converted to
milliseconds at 60 Hz.  The source computes `speed * (1000 / 60)` in floating
point; it is embedded with integer division, which none of the properties
below inspect. -/
def updateDropTime (gs : TetrisGameState) : TetrisGameState :=
  { gs with
    dropTime := getGravitySpeed gs.stats.level * 1000 / 60,
    gravityLevel := gs.stats.level }

/-! gameActions.ts -/

/-- `movePiece` from gameActions.ts. -/
def movePiece (gs : TetrisGameState) (direction : Int) : TetrisGameState :=
  if gs.gameState ≠ .playing then gs
  else
    match gs.activePiece with
    | none => gs
    | some piece =>
      if isValidPosition gs.board piece ⟨direction, 0⟩ then
        let newPiece : ActivePiece :=
          { piece with
            position := ⟨piece.position.x + direction, piece.position.y⟩,
            lockDelay :=
              if shouldLock gs.board piece ∧ piece.moveResets < MAX_MOVE_RESETS then 0
              else piece.lockDelay,
            moveResets :=
              if shouldLock gs.board piece ∧ piece.moveResets < MAX_MOVE_RESETS then
                piece.moveResets + 1
              else piece.moveResets }
        { gs with
          activePiece := some newPiece,
          ghostPiece := some (calculateGhostPosition gs.board newPiece) }
      else gs

/-- `rotatePiece` from gameActions.ts.  Note that `tryRotation` already set
`moveResets := piece.moveResets + 1` on the returned piece; only `lockDelay`
is adjusted here. -/
def rotatePiece (gs : TetrisGameState) (direction : Int) : TetrisGameState :=
  if gs.gameState ≠ .playing then gs
  else
    match gs.activePiece with
    | none => gs
    | some piece =>
      match tryRotation gs.board piece direction with
      | none => gs
      | some rotatedPiece =>
        let newPiece : ActivePiece :=
          { rotatedPiece with
            lockDelay :=
              if shouldLock gs.board rotatedPiece ∧ rotatedPiece.moveResets < MAX_MOVE_RESETS
              then 0
              else piece.lockDelay }
        { gs with
          activePiece := some newPiece,
          ghostPiece := some (calculateGhostPosition gs.board newPiece) }

/-- `softDrop` from gameActions.ts. -/
def softDrop (gs : TetrisGameState) : TetrisGameState :=
  if gs.gameState ≠ .playing then gs
  else
    match gs.activePiece with
    | none => gs
    | some piece =>
      if isValidPosition gs.board piece ⟨0, -1⟩ then
        let newPiece : ActivePiece :=
          { piece with position := ⟨piece.position.x, piece.position.y - 1⟩ }
        { gs with
          activePiece := some newPiece,
          stats := { gs.stats with score := gs.stats.score + SCORE_SOFT_DROP },
          ghostPiece := some (calculateGhostPosition gs.board newPiece) }
      else gs

/-- `hardDrop` from gameActions.ts.  `ghostPositions[0]` is a block
coordinate; its `y` is written into `position.y` unchanged. -/
def hardDrop (gs : TetrisGameState) : TetrisGameState :=
  if gs.gameState ≠ .playing then gs
  else
    match gs.activePiece with
    | none => gs
    | some piece =>
      let ghostPositions := calculateGhostPosition gs.board piece
      if ghostPositions.isEmpty then gs
      else
        let g0 := ghostPositions.headD ⟨0, 0⟩
        let dropDistance := piece.position.y - g0.y
        let newPiece : ActivePiece :=
          { piece with
            position := ⟨piece.position.x, g0.y⟩,
            lockDelay := LOCK_DELAY,
            moveResets := MAX_MOVE_RESETS }
        { gs with
          activePiece := some newPiece,
          stats := { gs.stats with
            score := gs.stats.score + SCORE_HARD_DROP * dropDistance },
          ghostPiece := some ghostPositions }

/-- `holdPiece` from gameActions.ts.  `rng1` feeds the bag draw for the new
active piece, `rng2` the queue-refill draw. -/
def holdPiece (gs : TetrisGameState) (rng1 rng2 : List Nat) : TetrisGameState :=
  if gs.gameState ≠ .playing then gs
  else
    match gs.activePiece with
    | none => gs
    | some piece =>
      if gs.canHold = false then gs
      else
        let newHoldPiece := piece.type
        match gs.holdPiece with
        | some held =>
          let newActivePiece := createActivePiece held
          if isGameOver gs.board newActivePiece then setGameOver gs
          else
            { gs with
              activePiece := some newActivePiece,
              holdPiece := some newHoldPiece,
              canHold := false,
              ghostPiece := some (calculateGhostPosition gs.board newActivePiece) }
        | none =>
          let drawn := getNextPiece gs.bag rng1
          let newActivePiece := createActivePiece drawn.1
          let shifted := gs.nextQueue.tail
          let refill :=
            if shifted.length < 3 then
              let drawn2 := getNextPiece drawn.2 rng2
              (shifted ++ [drawn2.1], drawn2.2)
            else (shifted, drawn.2)
          if isGameOver gs.board newActivePiece then setGameOver gs
          else
            { gs with
              activePiece := some newActivePiece,
              holdPiece := some newHoldPiece,
              canHold := false,
              nextQueue := refill.1,
              bag := refill.2,
              ghostPiece := some (calculateGhostPosition gs.board newActivePiece) }

/-- `lockActivePiece` from gameActions.ts.  `rng1` feeds the draw of the next
active piece, `rng2` the queue-refill draw (whose resulting bag the source
discards). -/
def lockActivePiece (gs : TetrisGameState) (rng1 rng2 : List Nat) : TetrisGameState :=
  match gs.activePiece with
  | none => gs
  | some piece =>
    let wasTSpin := isTSpin gs.board piece
    let newBoard := lockPiece gs.board piece
    let completedLines := getCompletedLines newBoard
    let clearedBoard := clearLines newBoard completedLines
    let lineScore := calculateScore completedLines.length gs.stats.level wasTSpin
    let newStats :=
      { updateStats gs.stats completedLines.length with
        score := gs.stats.score + lineScore }
    let drawn := getNextPiece gs.bag rng1
    let shifted := gs.nextQueue.tail
    let newNextQueue :=
      if shifted.length < 3 then shifted ++ [(getNextPiece drawn.2 rng2).1]
      else shifted
    let newActivePiece := createActivePiece drawn.1
    if isGameOver clearedBoard newActivePiece then
      setGameOver { gs with
        board := clearedBoard, activePiece := none, stats := newStats }
    else
      let updatedGameState : TetrisGameState :=
        { gs with
          board := clearedBoard,
          activePiece := some newActivePiece,
          canHold := true,
          nextQueue := newNextQueue,
          bag := drawn.2,
          stats := newStats,
          ghostPiece := some (calculateGhostPosition clearedBoard newActivePiece) }
      if newStats.level ≠ gs.stats.level then updateDropTime updatedGameState
      else updatedGameState

/-- `updateLockDelay` from gameActions.ts. -/
def updateLockDelay (gs : TetrisGameState) (deltaTime : Int) (rng1 rng2 : List Nat) :
    TetrisGameState :=
  if gs.gameState ≠ .playing then gs
  else
    match gs.activePiece with
    | none => gs
    | some piece =>
      if shouldLock gs.board piece then
        let newLockDelay := piece.lockDelay + deltaTime
        if LOCK_DELAY ≤ newLockDelay then lockActivePiece gs rng1 rng2
        else { gs with activePiece := some { piece with lockDelay := newLockDelay } }
      else { gs with activePiece := some { piece with lockDelay := 0 } }

/-- The stream of pieces produced by successive `getNextPiece` calls, the bag
threaded from draw to draw; `rngs k` supplies the randomness of the `k`-th
bag refill. -/
def nextPieceRun (rngs : Nat → List Nat) (k : Nat) (bag : List Tetromino) :
    Nat → List Tetromino
  | 0 => []
  | n + 1 =>
    let drawn := getNextPiece bag (rngs k)
    drawn.1 :: nextPieceRun rngs (if bag.isEmpty then k + 1 else k) drawn.2 n

/-! Concrete states used to check the claims. -/

def baseStats : GameStats := { score := 0, level := 1, lines := 0, linesUntilNext := 10 }

/-- A playing state with the given board, active piece, hold slot, queue and
bag. -/
def mkState (board : GameBoard) (piece : Option ActivePiece) (hold : Option Tetromino)
    (canHoldFlag : Bool) (queue bag : List Tetromino) : TetrisGameState :=
  { board := board, activePiece := piece, holdPiece := hold, canHold := canHoldFlag,
    nextQueue := queue, bag := bag, ghostPiece := none, stats := baseStats,
    gameState := .playing, dropTime := 800, lastDrop := 0, gravityLevel := 1 }

/-- A vertical I piece hugging the left wall (its blocks are in column 0). -/
def c1Piece : ActivePiece := ⟨.I, ⟨-2, 5⟩, 1, 0, 0⟩

/-- Column 0 occupied from the floor up to row 21. -/
def towerGrid : List (List (Option Tetromino)) :=
  (List.range 40).map fun y =>
    if y ≤ 21 then (some .T) :: List.replicate 9 none else List.replicate 10 none

/-- An O piece resting on the tower, its cells at rows 22 and 23 — above the
visible playfield boundary (20). -/
def c2Piece : ActivePiece := ⟨.O, ⟨-1, 22⟩, 0, 0, 0⟩

def c2State : TetrisGameState :=
  mkState ⟨towerGrid, 10, 40, 20⟩ (some c2Piece) none true [.T, .T, .T, .T] [.T, .T]

/-- Start of the hold-swap run: empty board and bag, active T piece. -/
def c3State0 : TetrisGameState :=
  mkState createEmptyBoard (some (createActivePiece .T)) none true
    [.Z, .Z, .Z, .Z, .Z, .Z] []

def c3State1 : TetrisGameState := holdPiece c3State0 [] []
def c3State2 : TetrisGameState := updateLockDelay (hardDrop c3State1) 0 [] []
def c3State3 : TetrisGameState := holdPiece c3State2 [] []
def c3State4 : TetrisGameState := updateLockDelay (hardDrop c3State3) 0 [] []
def c3State5 : TetrisGameState := updateLockDelay (hardDrop c3State4) 0 [] []
def c3State6 : TetrisGameState := updateLockDelay (hardDrop c3State5) 0 [] []

/-- The type of the piece currently in play. -/
def activeType (s : TetrisGameState) : Option Tetromino := s.activePiece.map (·.type)

/-- An airborne T piece at spawn with a nonzero lock-delay timer. -/
def c4Piece : ActivePiece := ⟨.T, ⟨3, 21⟩, 0, 7, 0⟩

def c4State : TetrisGameState :=
  mkState createEmptyBoard (some c4Piece) none true [.Z] [.Z]

/-- Rows 0-7 filled in columns 0-8, column 9 an open well. -/
def wellGrid : List (List (Option Tetromino)) :=
  (List.range 40).map fun y =>
    if y ≤ 7 then List.replicate 9 (some .T) ++ [none] else List.replicate 10 none

/-- A vertical I piece filling rows 0-3 of the well (column 9). -/
def c5Piece : ActivePiece := ⟨.I, ⟨7, 0⟩, 1, 0, 0⟩

def c5State0 : TetrisGameState :=
  mkState ⟨wellGrid, 10, 40, 20⟩ (some c5Piece) none true [.T, .T, .T, .T] [.I, .T]

def c5State1 : TetrisGameState := updateLockDelay c5State0 500 [] []
def c5State2 : TetrisGameState :=
  movePiece (movePiece (movePiece (movePiece (rotatePiece c5State1 1) 1) 1) 1) 1
def c5State3 : TetrisGameState := hardDrop c5State2
def c5State4 : TetrisGameState := updateLockDelay c5State3 0 [] []

def c6State : TetrisGameState :=
  mkState createEmptyBoard (some (createActivePiece .T)) none true [.Z] [.Z]

def c7State : TetrisGameState :=
  mkState createEmptyBoard (some (createActivePiece .I)) none true
    [.Z, .Z, .Z, .Z] [.Z, .Z]

/-- Where `hardDrop` actually leaves the I piece: one row above the floor. -/
def c7Piece : ActivePiece := ⟨.I, ⟨3, 0⟩, 0, 500, 15⟩

/-- A small rectangular board: one full row below one empty row. -/
def c8Board : GameBoard := ⟨[[some .T], [none]], 1, 2, 1⟩

/-- An empty grid except one cell at (4, 21), blocking the T spawn pose. -/
def blockTSpawnGrid : List (List (Option Tetromino)) :=
  (List.replicate 40 (List.replicate 10 (none : Option Tetromino))).set 21
    ((List.replicate 10 (none : Option Tetromino)).set 4 (some .T))

def c9Piece : ActivePiece := ⟨.O, ⟨4, 0⟩, 0, 0, 0⟩

def c9State : TetrisGameState :=
  mkState ⟨blockTSpawnGrid, 10, 40, 20⟩ (some c9Piece) none true
    [.Z, .Z, .Z, .Z] [.T, .T]

/-! Shared facts about the shape tables. -/

/-- Every rotation mask has at least one set cell. -/
lemma shapeCells_ne_nil : ∀ (t : Tetromino) (r : Fin 4),
    shapeCells (getPieceShape t r) ≠ [] := by decide

/-- Every set cell of a mask lies in rows 0-3 (the masks are 4x4). -/
lemma shapeCells_row_le : ∀ (t : Tetromino) (r : Fin 4),
    ∀ c ∈ shapeCells (getPieceShape t r), c.1 ≤ 3 := by decide

/-- A piece always has at least one block. -/
lemma getPieceBlocks_ne_nil (p : ActivePiece) : getPieceBlocks p ≠ [] := by
  simp only [getPieceBlocks, ne_eq, List.map_eq_nil_iff]
  exact shapeCells_ne_nil _ _

/-- C1: the SRS kick table is never consulted.  `tryRotation` builds its key
from the numeric rotation states (e.g. `"I_1_2"`), while every key of
`SRS_WALL_KICKS` writes states 1 and 3 as `R` and `L` (e.g. `"I_R_2"`), so
the lookup misses for every piece type, every from-state and both directions,
and the fallback `[(0,0)]` is the only candidate ever tried.  Consequently a
wall kick the standard SRS list would allow is refused: the vertical I piece
`c1Piece` hugging the left wall cannot rotate at offset `(0,0)`, so
`tryRotation` fails, although the `"I_R_2"` kick `(2,0)` of the table would
have produced a valid pose. -/
theorem c1_srs_kick_table_never_used :
    (∀ (t : Tetromino) (r : Fin 4) (cw : Bool),
      List.lookup
        (rotationKeyOf t r (rotIndex ((r.val : Int) + (if cw then 1 else -1) + 4)))
        SRS_WALL_KICKS = none) ∧
    tryRotation createEmptyBoard c1Piece 1 = none ∧
    isValidPosition createEmptyBoard
      { c1Piece with
        position := ⟨c1Piece.position.x + 2, c1Piece.position.y - 0⟩,
        rotation := 2, moveResets := c1Piece.moveResets + 1 } ⟨0, 0⟩ = true := by
  decide

/-- C2 counterexample: a piece locks with all its cells at rows 22-23, above
the visible boundary (`visibleHeight = 20`), yet the resulting phase is still
`playing` — the engine has no lock-out condition. -/
theorem c2_lockout_without_gameover :
    shouldLock c2State.board c2Piece = true ∧
    (getPieceBlocks c2Piece).all
      (fun b => decide ((c2State.board.visibleHeight : Int) ≤ b.y)) = true ∧
    (updateLockDelay c2State 500 [] []).gameState = GState.playing ∧
    cellAt (updateLockDelay c2State 500 [] []).board 0 22 = some .O ∧
    cellAt (updateLockDelay c2State 500 [] []).board 1 23 = some .O := by
  decide

/-- C3 counterexample: starting from an empty bag, the first seven piece
types the engine puts into play (initial piece, hold draw, three locks
around a hold swap) are `T,J,L,T,O,S,Z` — the hold swap replays `T`, so this
consecutive window of 7 in-play pieces is not a permutation of the 7 types. -/
theorem c3_inplay_window_not_permutation :
    c3State0.bag = [] ∧
    [activeType c3State0, activeType c3State1, activeType c3State2, activeType c3State3,
     activeType c3State4, activeType c3State5, activeType c3State6] =
      [some .T, some .J, some .L, some .T, some .O, some .S, some .Z] ∧
    ¬ List.Perm [Tetromino.T, .J, .L, .T, .O, .S, .Z] ALL_PIECES := by
  decide

/-- C4 counterexample: a successful rotation of an airborne piece (`shouldLock`
false) increments `moveResets` from 0 to 1, though the claim says a
non-grounded move or rotation must not change the reset count. -/
theorem c4_airborne_rotation_increments_resets :
    shouldLock c4State.board c4Piece = false ∧
    c4Piece.moveResets = 0 ∧
    (rotatePiece c4State 1).activePiece = some ⟨.T, ⟨3, 21⟩, 1, 7, 1⟩ := by
  decide

/-- C5: two back-to-back Tetrises (4 lines at `c5State1`, 4 more at
`c5State4`) are both scored as the plain `800 * (level + 1) = 1600`; no 1.5
multiplier exists anywhere in the scoring path. -/
theorem c5_no_back_to_back_multiplier :
    c5State1.stats.lines = 4 ∧ c5State4.stats.lines = 8 ∧
    c5State1.stats.score = c5State0.stats.score + calculateScore 4 1 false ∧
    c5State4.stats.score = c5State3.stats.score + calculateScore 4 1 false ∧
    calculateScore 4 1 false = 1600 ∧ c5State4.stats.score = 3242 := by
  decide

/-- C6 counterexample: a soft drop that merely moves the piece down changes
`stats.score` from 0 to 1 (the soft-drop bonus) without any lock taking
place — the board and the line counters are untouched. -/
theorem c6_softdrop_mutates_score_without_lock :
    (softDrop c6State).board = c6State.board ∧
    (softDrop c6State).activePiece =
      some { createActivePiece .T with position := ⟨3, 20⟩ } ∧
    c6State.stats.score = 0 ∧ (softDrop c6State).stats.score = 1 ∧
    (softDrop c6State).stats.lines = c6State.stats.lines := by
  decide

/-- C7: `hardDrop` on a horizontal I piece writes the y of the first ghost
*block* into `position.y`, leaving the piece one row above its lowest valid
position; nothing is locked (the board is unchanged, the piece is not even
grounded, so the next tick will reset its timer), and a subsequent move still
changes the pose. -/
theorem c7_harddrop_neither_lowest_nor_locked :
    (hardDrop c7State).activePiece = some c7Piece ∧
    isValidPosition c7State.board { c7Piece with position := ⟨3, -1⟩ } ⟨0, 0⟩ = true ∧
    (hardDrop c7State).board = c7State.board ∧
    shouldLock c7State.board c7Piece = false ∧
    (movePiece (hardDrop c7State) 1).activePiece =
      some { c7Piece with position := ⟨4, 0⟩ } := by
  decide

/-- C9 counterexample: hold applied in a playing state with an empty hold
slot and `canHold = true`, where the piece drawn from the bag collides at its
spawn pose: the game transitions to `gameOver` and the hold slot, `canHold`
and queue are left unchanged — the claimed postconditions fail. -/
theorem c9_hold_blockout_leaves_hold_empty :
    c9State.gameState = .playing ∧ c9State.canHold = true ∧ c9State.holdPiece = none ∧
    c9State.activePiece = some c9Piece ∧
    (holdPiece c9State [] []).holdPiece = none ∧
    (holdPiece c9State [] []).canHold = true ∧
    (holdPiece c9State [] []).gameState = .gameOver := by
  decide

/-- C2 (amended): in a playing state with an active piece, the phase after a
lock is `gameOver` exactly when the next spawned piece fails `isValid` on the
cleared board (block-out), and the phase after a hold is `gameOver` exactly
when holding is allowed and the swapped-in or drawn piece fails `isValid` at
its spawn pose; locking above the visible boundary plays no role. -/
theorem c2_blockout_is_the_only_gameover (gs : TetrisGameState) (p : ActivePiece)
    (r1 r2 : List Nat) (hplay : gs.gameState = .playing) (hp : gs.activePiece = some p) :
    ((lockActivePiece gs r1 r2).gameState = .gameOver ↔
      isGameOver (clearLines (lockPiece gs.board p) (getCompletedLines (lockPiece gs.board p)))
        (createActivePiece (getNextPiece gs.bag r1).1) = true) ∧
    ((holdPiece gs r1 r2).gameState = .gameOver ↔
      gs.canHold = true ∧
        isGameOver gs.board
          (createActivePiece (gs.holdPiece.getD (getNextPiece gs.bag r1).1)) = true) := by
  constructor
  · simp only [lockActivePiece, hp]
    split_ifs with hgo
    · simp [setGameOver, hgo]
    all_goals simp [updateDropTime, hplay, hgo]
  · unfold holdPiece
    rw [if_neg (by simp [hplay]), hp]
    dsimp only
    by_cases hch : gs.canHold = false
    · rw [if_pos hch]
      simp [hplay, hch]
    · rw [if_neg hch]
      simp only [Bool.not_eq_false] at hch
      cases hhold : gs.holdPiece with
      | some held =>
        dsimp only
        split_ifs with hgo
        · simp [setGameOver, hch, hgo]
        all_goals simp [hplay, hch, hgo]
      | none =>
        dsimp only
        split_ifs with hgo
        · simp [setGameOver, hch, hgo]
        all_goals simp [hplay, hch, hgo]

/-- Witness for the amended C2 theorem at the `c2State` fixture. -/
theorem c2_blockout_is_the_only_gameover_w :
    c2State.gameState = .playing ∧ c2State.activePiece = some c2Piece ∧
    ((lockActivePiece c2State [] []).gameState = .gameOver ↔
      isGameOver
        (clearLines (lockPiece c2State.board c2Piece)
          (getCompletedLines (lockPiece c2State.board c2Piece)))
        (createActivePiece (getNextPiece c2State.bag []).1) = true) :=
  ⟨rfl, rfl, (c2_blockout_is_the_only_gameover c2State c2Piece [] [] rfl rfl).1⟩

/-- A successful `tryRotation` returns one of the constructed candidates: the
type, lock delay and (incremented) reset count are fixed, and the result is
valid. -/
lemma tryRotation_result (board : GameBoard) (p rp : ActivePiece) (d : Int)
    (h : tryRotation board p d = some rp) :
    rp.type = p.type ∧ rp.moveResets = p.moveResets + 1 ∧ rp.lockDelay = p.lockDelay ∧
      rp.rotation = rotIndex ((p.rotation.val : Int) + d + 4) ∧
      isValidPosition board rp ⟨0, 0⟩ = true := by
  simp only [tryRotation] at h
  have hmem := List.mem_of_find?_eq_some h
  have hpred := List.find?_some h
  obtain ⟨kick, -, hk⟩ := List.mem_map.mp hmem
  subst hk
  exact ⟨rfl, rfl, rfl, rfl, hpred⟩

/-- C4 (amended): for a playing state with active piece `p`, a successful
horizontal move resets the timer and increments the reset count exactly when
the pre-move piece is grounded and `moveResets < 15`, and changes neither
while airborne or at the cap; a successful rotation *always* increments
`moveResets` by one (grounded or not, capped or not), and resets the timer
exactly when the post-rotation pose is grounded and the already-incremented
count is still below 15 (so a rotation at `moveResets = 14` consumes the last
reset but leaves the timer running). -/
theorem c4_reset_rules (gs : TetrisGameState) (p rp : ActivePiece) (d : Int)
    (hplay : gs.gameState = .playing) (hp : gs.activePiece = some p) :
    (isValidPosition gs.board p ⟨d, 0⟩ = true →
      ∃ q, (movePiece gs d).activePiece = some q ∧
        q.position = ⟨p.position.x + d, p.position.y⟩ ∧
        (shouldLock gs.board p = true → p.moveResets < MAX_MOVE_RESETS →
          q.lockDelay = 0 ∧ q.moveResets = p.moveResets + 1) ∧
        (shouldLock gs.board p = false →
          q.lockDelay = p.lockDelay ∧ q.moveResets = p.moveResets) ∧
        (MAX_MOVE_RESETS ≤ p.moveResets →
          q.lockDelay = p.lockDelay ∧ q.moveResets = p.moveResets)) ∧
    (tryRotation gs.board p d = some rp →
      rp.moveResets = p.moveResets + 1 ∧
      ∃ q, (rotatePiece gs d).activePiece = some q ∧
        q.position = rp.position ∧ q.rotation = rp.rotation ∧
        q.moveResets = p.moveResets + 1 ∧
        (shouldLock gs.board rp = true → p.moveResets + 1 < MAX_MOVE_RESETS →
          q.lockDelay = 0) ∧
        (shouldLock gs.board rp = false → q.lockDelay = p.lockDelay) ∧
        (MAX_MOVE_RESETS ≤ p.moveResets + 1 → q.lockDelay = p.lockDelay)) := by
  constructor
  · intro hv
    unfold movePiece
    rw [if_neg (by simp [hplay]), hp]
    dsimp only
    rw [if_pos hv]
    refine ⟨_, rfl, rfl, ?_, ?_, ?_⟩
    · intro hsl hlt
      constructor <;> · dsimp only; rw [if_pos ⟨by simp [hsl], hlt⟩]
    · intro hsl
      constructor <;> · dsimp only; rw [if_neg (by simp [hsl])]
    · intro hcap
      constructor <;> · dsimp only; rw [if_neg (by rintro ⟨-, hlt⟩; omega)]
  · intro hrt
    obtain ⟨-, hmr, hld, -, -⟩ := tryRotation_result gs.board p rp d hrt
    refine ⟨hmr, ?_⟩
    unfold rotatePiece
    rw [if_neg (by simp [hplay]), hp]
    dsimp only
    rw [hrt]
    dsimp only
    refine ⟨_, rfl, rfl, rfl, hmr, ?_, ?_, ?_⟩
    · intro hsl hlt
      dsimp only
      rw [if_pos ⟨by simp [hsl], by omega⟩]
    · intro hsl
      dsimp only
      rw [if_neg (by simp [hsl])]
    · intro hcap
      dsimp only
      rw [if_neg (by rintro ⟨-, hlt⟩; omega)]

/-- Witness for the amended C4 theorem: the concrete airborne rotation of
`c4State` increments the reset count. -/
theorem c4_reset_rules_w :
    c4State.gameState = .playing ∧ c4State.activePiece = some c4Piece ∧
    ∃ q, (rotatePiece c4State 1).activePiece = some q ∧
      q.moveResets = c4Piece.moveResets + 1 := by
  refine ⟨rfl, rfl, ?_⟩
  obtain ⟨-, h2⟩ := c4_reset_rules c4State c4Piece ⟨.T, ⟨3, 21⟩, 1, 7, 1⟩ 1 rfl rfl
  obtain ⟨hmr, q, hq, -, -, hqmr, -⟩ := h2 (by decide)
  exact ⟨q, hq, hqmr⟩

/-- The ghost cell list is never empty (every mask has a set cell). -/
lemma calculateGhostPosition_ne_nil (b : GameBoard) (p : ActivePiece) :
    calculateGhostPosition b p ≠ [] :=
  getPieceBlocks_ne_nil _

/-- C6 (amended): `softDrop` and `hardDrop` never touch the board or the
`level`/`lines`/`linesUntilNext` counters, but they do mutate `stats.score`:
a successful soft drop adds the 1-point bonus and a hard drop adds 2 points
per row of the computed drop distance. -/
theorem c6_drops_touch_only_score (gs : TetrisGameState) (p : ActivePiece)
    (hplay : gs.gameState = .playing) (hp : gs.activePiece = some p) :
    (softDrop gs).stats.level = gs.stats.level ∧
    (softDrop gs).stats.lines = gs.stats.lines ∧
    (softDrop gs).stats.linesUntilNext = gs.stats.linesUntilNext ∧
    (softDrop gs).board = gs.board ∧
    (hardDrop gs).stats.level = gs.stats.level ∧
    (hardDrop gs).stats.lines = gs.stats.lines ∧
    (hardDrop gs).stats.linesUntilNext = gs.stats.linesUntilNext ∧
    (hardDrop gs).board = gs.board ∧
    (isValidPosition gs.board p ⟨0, -1⟩ = true →
      (softDrop gs).stats.score = gs.stats.score + SCORE_SOFT_DROP) ∧
    (hardDrop gs).stats.score = gs.stats.score +
      SCORE_HARD_DROP *
        (p.position.y - ((calculateGhostPosition gs.board p).headD ⟨0, 0⟩).y) := by
  have hge : (calculateGhostPosition gs.board p).isEmpty = false := by
    cases hgl : calculateGhostPosition gs.board p with
    | nil => exact absurd hgl (calculateGhostPosition_ne_nil _ _)
    | cons a l => rfl
  unfold softDrop hardDrop
  rw [if_neg (by simp [hplay]), if_neg (by simp [hplay]), hp]
  dsimp only
  by_cases hv : isValidPosition gs.board p ⟨0, -1⟩ = true
  · rw [if_pos hv, if_neg (by simp [hge])]
    exact ⟨rfl, rfl, rfl, rfl, rfl, rfl, rfl, rfl, fun _ => rfl, rfl⟩
  · rw [if_neg hv, if_neg (by simp [hge])]
    exact ⟨rfl, rfl, rfl, rfl, rfl, rfl, rfl, rfl, fun h => absurd h hv, rfl⟩

/-- Witness for the amended C6 theorem at the `c6State` fixture. -/
theorem c6_drops_touch_only_score_w :
    c6State.gameState = .playing ∧
    c6State.activePiece = some (createActivePiece .T) ∧
    isValidPosition c6State.board (createActivePiece .T) ⟨0, -1⟩ = true ∧
    (softDrop c6State).stats.score = c6State.stats.score + SCORE_SOFT_DROP := by
  refine ⟨rfl, rfl, by decide, ?_⟩
  exact (c6_drops_touch_only_score c6State (createActivePiece .T) rfl rfl).2.2.2.2.2.2.2.2.1
    (by decide)

/-- C9 (amended): hold in a playing state with an active piece, `canHold`
true and an empty hold slot — *provided the piece drawn from the bag is valid
at its spawn pose* — stores the old active type, clears `canHold`, makes the
bag-drawn piece (front of the bag, or front of a freshly generated bag when
the bag was empty) the active piece, and discards the former front of the
next queue, which never becomes active.  (When the drawn piece is invalid at
spawn the state transitions to `gameOver` with hold slot, `canHold`, queue
and bag untouched.) -/
theorem c9_hold_empty_slot (gs : TetrisGameState) (p : ActivePiece) (r1 r2 : List Nat)
    (hplay : gs.gameState = .playing) (hp : gs.activePiece = some p)
    (hch : gs.canHold = true) (hhold : gs.holdPiece = none)
    (hok : isGameOver gs.board (createActivePiece (getNextPiece gs.bag r1).1) = false) :
    (holdPiece gs r1 r2).holdPiece = some p.type ∧
    (holdPiece gs r1 r2).canHold = false ∧
    (holdPiece gs r1 r2).activePiece =
      some (createActivePiece (getNextPiece gs.bag r1).1) ∧
    (gs.bag ≠ [] → (getNextPiece gs.bag r1).1 = gs.bag.headD .I) ∧
    (gs.bag = [] → (getNextPiece gs.bag r1).1 = (generateBag r1).headD .I) ∧
    (holdPiece gs r1 r2).nextQueue =
      (if gs.nextQueue.tail.length < 3
       then gs.nextQueue.tail ++ [(getNextPiece (getNextPiece gs.bag r1).2 r2).1]
       else gs.nextQueue.tail) := by
  unfold holdPiece
  rw [if_neg (by simp [hplay]), hp]
  dsimp only
  rw [if_neg (by simp [hch]), hhold]
  dsimp only
  rw [if_neg (by simp [hok])]
  refine ⟨rfl, rfl, rfl, ?_, ?_, ?_⟩
  · intro hb
    cases hbag : gs.bag with
    | nil => exact absurd hbag hb
    | cons a l => simp [getNextPiece]
  · intro hb
    simp [getNextPiece, hb]
  · split_ifs <;> rfl

/-- Witness for the amended C9 theorem at the `c3State0` fixture (empty bag,
empty hold slot, valid spawn for the drawn piece). -/
theorem c9_hold_empty_slot_w :
    c3State0.gameState = .playing ∧ c3State0.activePiece = some (createActivePiece .T) ∧
    c3State0.canHold = true ∧ c3State0.holdPiece = none ∧
    (holdPiece c3State0 [] []).holdPiece = some Tetromino.T ∧
    (holdPiece c3State0 [] []).canHold = false := by
  refine ⟨rfl, rfl, rfl, rfl, ?_, ?_⟩ <;>
  · have h := c9_hold_empty_slot c3State0 (createActivePiece .T) [] [] rfl rfl rfl rfl
      (by decide)
    first
      | exact h.1
      | exact h.2.1

/-- The row indices that `getCompletedLines` reports are exactly the indices
of rows whose every cell is occupied (for a grid of the board's height). -/
lemma mem_getCompletedLines (b : GameBoard) (hlen : b.grid.length = b.height) (i : Nat) :
    i ∈ getCompletedLines b ↔
      ∃ h : i < b.grid.length, (b.grid[i]).all (fun c => c.isSome) = true := by
  unfold getCompletedLines
  rw [List.mem_filter, List.mem_range]
  constructor
  · rintro ⟨hi, hall⟩
    have hi' : i < b.grid.length := by omega
    exact ⟨hi', by rwa [List.getD_eq_getElem _ _ hi'] at hall⟩
  · rintro ⟨hi, hall⟩
    exact ⟨by omega, by rwa [List.getD_eq_getElem _ _ hi]⟩

/-- Filtering an enumerated list on an index predicate that agrees pointwise
with a value predicate is plain filtering. -/
lemma enumFrom_filter_map_snd {α : Type} (q : Nat → Bool) (p : α → Bool) :
    ∀ (l : List α) (n : Nat), (∀ i (h : i < l.length), q (n + i) = p l[i]) →
      ((l.enumFrom n).filter (fun pr => q pr.1)).map Prod.snd = l.filter p
  | [], _, _ => rfl
  | a :: t, n, hq => by
    have h0 : q n = p a := by simpa using hq 0 (by simp)
    have ht := enumFrom_filter_map_snd q p t (n + 1) (fun i h => by
      have h' := hq (i + 1) (by simpa using Nat.succ_lt_succ h)
      simpa [Nat.add_assoc, Nat.add_comm 1 i] using h')
    rw [List.enumFrom_cons]
    by_cases hpa : p a = true
    · simp only [List.filter_cons, h0, hpa, if_true]
      simp [ht]
    · simp only [Bool.not_eq_true] at hpa
      simp only [List.filter_cons, h0, hpa]
      simp [ht]

/-- An all-empty row of positive width is not a completed row. -/
lemma replicate_none_not_complete (w : Nat) (hw : 1 ≤ w) :
    (List.replicate w (none : Option Tetromino)).all (fun c => c.isSome) = false := by
  cases w with
  | zero => omega
  | succ n => simp [List.replicate_succ]

/-- The kept rows of `clearLines b (getCompletedLines b)` are exactly the
incomplete rows of `b`, in order. -/
lemma cleared_kept_rows (b : GameBoard) (hlen : b.grid.length = b.height) :
    ((b.grid.enum.filter fun pr => !((getCompletedLines b).contains pr.1)).map Prod.snd) =
      b.grid.filter (fun row => !(row.all fun c => c.isSome)) := by
  have henum : b.grid.enum = b.grid.enumFrom 0 := rfl
  rw [henum]
  refine enumFrom_filter_map_snd (fun i => !((getCompletedLines b).contains i))
    (fun row => !(row.all fun c => c.isSome)) b.grid 0 ?_
  intro i h
  simp only [Nat.zero_add]
  rcases hall : (b.grid[i]).all (fun c => c.isSome) with _ | _
  · have hnot : i ∉ getCompletedLines b := by
      intro hmem
      obtain ⟨hh, hi2⟩ := (mem_getCompletedLines b hlen i).mp hmem
      rw [hall] at hi2
      exact Bool.false_ne_true hi2
    have hc : (getCompletedLines b).contains i = false := by simpa using hnot
    rw [hc]
  · have hmem : i ∈ getCompletedLines b := (mem_getCompletedLines b hlen i).mpr ⟨h, hall⟩
    have hc : (getCompletedLines b).contains i = true := by simpa using hmem
    rw [hc]

/-- C8: applying `clearLines` to the completed lines of a rectangular board
of positive width yields a board of the same dimensions on which
`getCompletedLines` finds nothing, the incomplete rows kept in their
relative order below the freshly appended empty rows. -/
theorem c8_clear_completed_lines_idempotent (b : GameBoard)
    (hlen : b.grid.length = b.height)
    (_hrect : ∀ row ∈ b.grid, row.length = b.width)
    (hw : 1 ≤ b.width) :
    (clearLines b (getCompletedLines b)).height = b.height ∧
    (clearLines b (getCompletedLines b)).width = b.width ∧
    (clearLines b (getCompletedLines b)).grid.length = b.grid.length ∧
    getCompletedLines (clearLines b (getCompletedLines b)) = [] ∧
    ∃ k, (clearLines b (getCompletedLines b)).grid =
      b.grid.filter (fun row => !(row.all fun c => c.isSome)) ++
        List.replicate k (List.replicate b.width (none : Option Tetromino)) := by
  by_cases hL : (getCompletedLines b).isEmpty = true
  · have hLnil : getCompletedLines b = [] := List.isEmpty_iff.mp hL
    have hclear : clearLines b (getCompletedLines b) = b := by
      unfold clearLines
      rw [if_pos hL]
    have hfull : b.grid.filter (fun row => !(row.all fun c => c.isSome)) = b.grid := by
      rw [List.filter_eq_self]
      intro row hrow
      obtain ⟨i, hi, hrow⟩ := List.mem_iff_getElem.mp hrow
      rcases hall : (b.grid[i]).all (fun c => c.isSome) with _ | _
      · rw [← hrow, hall]
        rfl
      · exact absurd (hLnil ▸ (mem_getCompletedLines b hlen i).mpr ⟨hi, hall⟩)
          (List.not_mem_nil i)
    rw [hclear]
    exact ⟨rfl, rfl, rfl, hLnil, 0, by simp [hfull]⟩
  · have hclear : clearLines b (getCompletedLines b) =
        { b with grid := b.grid.filter (fun row => !(row.all fun c => c.isSome)) ++ List.replicate (b.height - (b.grid.filter (fun row => !(row.all fun c => c.isSome))).length) (List.replicate b.width none) } := by
      unfold clearLines
      rw [if_neg hL]
      simp only [cleared_kept_rows b hlen]
    set kept := b.grid.filter (fun row => !(row.all fun c => c.isSome)) with hkept
    have hkle : kept.length ≤ b.grid.length := List.length_filter_le _ _
    have hlen' : (clearLines b (getCompletedLines b)).grid.length = b.grid.length := by
      rw [hclear]
      simp only [List.length_append, List.length_replicate]
      omega
    refine ⟨by rw [hclear], by rw [hclear], hlen', ?_, ?_⟩
    · rw [hclear]
      unfold getCompletedLines
      rw [List.filter_eq_nil_iff]
      intro r hr
      rw [List.mem_range] at hr
      dsimp only at hr ⊢
      have hrlen : r < (kept ++
          List.replicate (b.height - kept.length)
            (List.replicate b.width (none : Option Tetromino))).length := by
        simp only [List.length_append, List.length_replicate]
        omega
      rw [List.getD_eq_getElem _ _ hrlen, List.getElem_append]
      split_ifs with hrk
      · intro hall
        have hmem : kept[r] ∈ List.filter (fun row => !(row.all fun c => c.isSome)) b.grid := by
          rw [← hkept]
          exact List.getElem_mem hrk
        obtain ⟨-, hp⟩ := List.mem_filter.mp hmem
        rw [hall] at hp
        simp at hp
      · rw [List.getElem_replicate]
        intro hall
        rw [replicate_none_not_complete b.width hw] at hall
        exact Bool.false_ne_true hall
    · exact ⟨b.height - kept.length, by rw [hclear]⟩

/-- Witness for the C8 theorem at the tiny rectangular board `c8Board`. -/
theorem c8_clear_completed_lines_idempotent_w :
    (c8Board.grid.length = c8Board.height ∧
      (∀ row ∈ c8Board.grid, row.length = c8Board.width) ∧ 1 ≤ c8Board.width) ∧
    ((clearLines c8Board (getCompletedLines c8Board)).height = c8Board.height ∧
      getCompletedLines (clearLines c8Board (getCompletedLines c8Board)) = []) := by
  refine ⟨⟨by decide, by decide, by decide⟩, ?_⟩
  have h := c8_clear_completed_lines_idempotent c8Board (by decide) (by decide) (by decide)
  exact ⟨h.1, h.2.2.2.1⟩

/-- A pose that `isValidPosition` accepts has `y ≥ -3`: some mask cell is
occupied (row ≤ 3) and its absolute `y` must be nonnegative. -/
lemma isValid_y_lower_bound (board : GameBoard) (p : ActivePiece)
    (h : isValidPosition board p ⟨0, 0⟩ = true) : -3 ≤ p.position.y := by
  obtain ⟨c, hc⟩ := List.exists_mem_of_ne_nil _ (shapeCells_ne_nil p.type p.rotation)
  have hrow := shapeCells_row_le p.type p.rotation c hc
  have hb : (⟨p.position.x + 0 + c.2, p.position.y + 0 + c.1⟩ : Position) ∈
      getPieceBlocks { p with position := ⟨p.position.x + 0, p.position.y + 0⟩ } := by
    simp only [getPieceBlocks, List.mem_map]
    exact ⟨c, hc, rfl⟩
  have hall := List.all_eq_true.mp h _ hb
  simp only at hall
  split_ifs at hall with h1 h2
  push_neg at h1
  omega

/-- Loop invariant of the ghost descent: with at least `(y + 4).toNat` fuel
the loop returns the lowest row reachable from `y` by unit downward steps
through valid poses — every intermediate pose is valid and one row lower is
not. -/
lemma ghostDropYAux_spec (board : GameBoard) (piece : ActivePiece) :
    ∀ (fuel : Nat) (y : Int), (y + 4).toNat ≤ fuel →
      ghostDropYAux board piece fuel y ≤ y ∧
      (∀ z, ghostDropYAux board piece fuel y ≤ z → z < y →
        isValidPosition board { piece with position := ⟨piece.position.x, z⟩ } ⟨0, 0⟩ = true) ∧
      isValidPosition board { piece with
        position := ⟨piece.position.x, ghostDropYAux board piece fuel y - 1⟩ } ⟨0, 0⟩ = false := by
  intro fuel
  induction fuel with
  | zero =>
    intro y hle
    simp only [ghostDropYAux]
    refine ⟨le_refl y, fun z hz1 hz2 => absurd hz2 (by omega), ?_⟩
    rcases hv : isValidPosition board
        { piece with position := ⟨piece.position.x, y - 1⟩ } ⟨0, 0⟩ with _ | _
    · rfl
    · have hb := isValid_y_lower_bound board _ hv
      simp only at hb
      omega
  | succ n ih =>
    intro y hle
    simp only [ghostDropYAux]
    by_cases hv : isValidPosition board
        { piece with position := ⟨piece.position.x, y - 1⟩ } ⟨0, 0⟩ = true
    · rw [if_pos hv]
      have hb : -3 ≤ y - 1 := by
        have := isValid_y_lower_bound board _ hv
        simpa using this
      have hle' : ((y - 1) + 4).toNat ≤ n := by omega
      obtain ⟨ih1, ih2, ih3⟩ := ih (y - 1) hle'
      refine ⟨by omega, ?_, ih3⟩
      intro z hz1 hz2
      by_cases hzy : z = y - 1
      · subst hzy
        exact hv
      · exact ih2 z hz1 (by omega)
    · rw [if_neg hv]
      exact ⟨le_refl y, fun z hz1 hz2 => absurd hz2 (by omega), by simpa using hv⟩

/-- C10: the ghost-piece scan terminates with a well-defined answer: writing
`g` for the row the loop stops at, `calculateGhostPosition` returns the
piece's cells at `(x, g)`, where `g` is reachable from the current `y` by
unit downward steps through poses `isValid` accepts, and the pose one row
below `g` is rejected (the masks are nonempty, so validity bounds the
descent from below and the loop cannot run forever). -/
theorem c10_ghost_descent_characterization (board : GameBoard) (piece : ActivePiece) :
    calculateGhostPosition board piece =
      getPieceBlocks { piece with
        position := ⟨piece.position.x, ghostDropY board piece piece.position.y⟩ } ∧
    ghostDropY board piece piece.position.y ≤ piece.position.y ∧
    (∀ z, ghostDropY board piece piece.position.y ≤ z → z < piece.position.y →
      isValidPosition board { piece with position := ⟨piece.position.x, z⟩ } ⟨0, 0⟩ = true) ∧
    isValidPosition board { piece with
      position := ⟨piece.position.x, ghostDropY board piece piece.position.y - 1⟩ } ⟨0, 0⟩
      = false ∧
    getPieceBlocks piece ≠ [] := by
  obtain ⟨h1, h2, h3⟩ :=
    ghostDropYAux_spec board piece (piece.position.y + 4).toNat piece.position.y (le_refl _)
  exact ⟨rfl, h1, h2, h3, getPieceBlocks_ne_nil piece⟩

/-- Witness for the C10 characterization: a T piece at spawn over the empty
board descends to row 0, every intermediate pose is valid, and the pose one
row lower is rejected. -/
theorem c10_ghost_descent_characterization_w :
    ghostDropY createEmptyBoard (createActivePiece .T) 21 ≤ 21 ∧
    isValidPosition createEmptyBoard
      { createActivePiece .T with position := ⟨3, 5⟩ } ⟨0, 0⟩ = true ∧
    isValidPosition createEmptyBoard
      { createActivePiece .T with
        position := ⟨3, ghostDropY createEmptyBoard (createActivePiece .T) 21 - 1⟩ } ⟨0, 0⟩
      = false := by
  have h := c10_ghost_descent_characterization createEmptyBoard (createActivePiece .T)
  exact ⟨h.2.1, h.2.2.1 5 (by decide) (by decide), h.2.2.2.1⟩

/-- Effect of `List.set` on element counts, in cancellation-friendly form. -/
lemma count_set_add (x b : Tetromino) :
    ∀ (l : List Tetromino) (n : Nat) (h : n < l.length),
      (l.set n b).count x + (if l[n] = x then 1 else 0) =
        l.count x + (if b = x then 1 else 0)
  | [], n, h => absurd h (by simp)
  | a :: t, 0, _ => by
    simp only [List.set_cons_zero, List.count_cons, List.getElem_cons_zero, beq_iff_eq]
    split_ifs <;> omega
  | a :: t, n + 1, h => by
    simp only [List.set_cons_succ, List.count_cons, List.getElem_cons_succ, beq_iff_eq]
    have ih := count_set_add x b t n (by simpa using h)
    split_ifs at ih ⊢ <;> omega

/-- The Fisher-Yates swap step preserves the multiset of the list. -/
lemma listSwap_perm (l : List Tetromino) (i j : Nat) : (listSwap l i j).Perm l := by
  unfold listSwap
  cases hgi : l.get? i with
  | none => exact List.Perm.refl l
  | some a =>
    cases hgj : l.get? j with
    | none => exact List.Perm.refl l
    | some b =>
      dsimp only
      obtain ⟨hi, hga⟩ := List.get?_eq_some.mp hgi
      obtain ⟨hj, hgb⟩ := List.get?_eq_some.mp hgj
      rw [List.get_eq_getElem] at hga hgb
      rw [List.perm_iff_count]
      intro x
      have h1 := count_set_add x b l i hi
      have hj' : j < (l.set i b).length := by simpa using hj
      have h2 := count_set_add x a (l.set i b) j hj'
      rw [List.getElem_set] at h2
      rw [hga] at h1
      by_cases hij : i = j
      · have hab : a = b := by
          subst hij
          rw [← hga, ← hgb]
        rw [if_pos hij] at h2
        rw [hab] at h1 h2 ⊢
        split_ifs at h1 h2 <;> omega
      · rw [if_neg hij, hgb] at h2
        split_ifs at h1 h2 <;> omega

/-- The whole Fisher-Yates loop is a permutation. -/
lemma fisherYates_perm : ∀ (i : Nat) (l : List Tetromino) (rng : List Nat),
    (fisherYates l rng i).Perm l
  | 0, l, _ => List.Perm.refl l
  | k + 1, l, rng => by
    simp only [fisherYates]
    exact (fisherYates_perm k _ rng.tail).trans
      (listSwap_perm l (k + 1) (rng.headD 0 % (k + 2)))

/-- `generateBag` always returns a permutation of the 7 piece types,
whatever the random draws were. -/
lemma generateBag_perm (rng : List Nat) : (generateBag rng).Perm ALL_PIECES :=
  fisherYates_perm 6 ALL_PIECES rng

lemma generateBag_length (rng : List Nat) : (generateBag rng).length = 7 :=
  (generateBag_perm rng).length_eq.trans rfl

/-- While the bag is nonempty, the draw sequence just pops the bag. -/
lemma nextPieceRun_nonempty_bag (rngs : Nat → List Nat) (k : Nat) :
    ∀ (bag : List Tetromino) (m : Nat),
      nextPieceRun rngs k bag (bag.length + m) = bag ++ nextPieceRun rngs k [] m
  | [], m => by simp
  | a :: t, m => by
    have ih := nextPieceRun_nonempty_bag rngs k t m
    rw [show (a :: t).length + m = (t.length + m) + 1 by simp; omega]
    simp [nextPieceRun, getNextPiece]
    rw [ih]

/-- Bumping the refill counter is the same as shifting the randomness
stream. -/
lemma nextPieceRun_shift (rngs : Nat → List Nat) :
    ∀ (n k : Nat) (bag : List Tetromino),
      nextPieceRun rngs (k + 1) bag n = nextPieceRun (fun i => rngs (i + 1)) k bag n
  | 0, _, _ => rfl
  | n + 1, k, bag => by
    by_cases hbe : bag.isEmpty = true <;>
      simp only [nextPieceRun, hbe, if_true, Bool.false_eq_true, if_false] <;>
      rw [nextPieceRun_shift rngs n]

/-- Drawing from an empty bag first emits exactly one freshly generated bag. -/
lemma nextPieceRun_empty_bag (rngs : Nat → List Nat) (k m : Nat) :
    nextPieceRun rngs k [] (7 + m) =
      generateBag (rngs k) ++ nextPieceRun rngs (k + 1) [] m := by
  have hne : generateBag (rngs k) ≠ [] := by
    intro h
    have := generateBag_length (rngs k)
    rw [h] at this
    simp at this
  obtain ⟨hd, tl, hb⟩ := List.exists_cons_of_ne_nil hne
  have htl : tl.length = 6 := by
    have := generateBag_length (rngs k)
    rw [hb] at this
    simpa using this
  rw [show 7 + m = (6 + m) + 1 by omega]
  simp only [nextPieceRun, getNextPiece, List.isEmpty_nil, if_true]
  rw [hb]
  simp only [List.headD_cons, List.tail_cons, List.cons_append]
  rw [show 6 + m = tl.length + m by omega, nextPieceRun_nonempty_bag]

/-- C3 (amended): the 7-bag window invariant holds for the sequence of
*bag draws* (successive `getNextPiece` results with the bag threaded
through): starting from an empty bag, for every outcome of the shuffle's
random choices, every consecutive non-overlapping window of 7 drawn pieces
is a permutation of the 7 canonical types.  (The sequence of pieces put
into play deviates from the draw sequence: a hold swap re-plays a stored
type and queue-refill draws are diverted into the queue, which is never
played — see the counterexample.) -/
theorem c3_bag_draw_windows_are_permutations (rngs : Nat → List Nat) (k : Nat) :
    ((nextPieceRun rngs 0 [] (7 * k + 7)).drop (7 * k)).Perm ALL_PIECES := by
  induction k generalizing rngs with
  | zero =>
    simp only [Nat.mul_zero, Nat.zero_add, List.drop_zero]
    have h := nextPieceRun_empty_bag rngs 0 0
    simp only [Nat.add_zero] at h
    rw [h]
    simp only [nextPieceRun, List.append_nil]
    exact generateBag_perm (rngs 0)
  | succ n ih =>
    have h1 : 7 * (n + 1) + 7 = 7 + (7 * n + 7) := by omega
    rw [h1, nextPieceRun_empty_bag]
    have h2 : 7 * (n + 1) = (generateBag (rngs 0)).length + 7 * n := by
      rw [generateBag_length]
      omega
    rw [h2, List.drop_append]
    have hs := nextPieceRun_shift rngs (7 * n + 7) 0 []
    rw [hs]
    exact ih (fun i => rngs (i + 1))

end Tetris
